import Mathlib

/-!
Shallow embedding of the wasm-globe animation core (src/lib.rs).

The program builds three sphere-shaped point clouds, a fixed camera matrix,
and an animation loop: on every tick it clears the canvas, rotates and
projects every point of every set, draws it as a dot, and advances a global
time scalar by 0.002.  Machine `f64` arithmetic is embedded as exact real
arithmetic; viewport sizes used only in the integer tier selection are
embedded as rationals so that the selection is decidable.
-/

namespace WasmGlobe

/-- 3D vectors (nalgebra `Vector3<f64>` / `Point3<f64>`). -/
abbrev Vec3 := Fin 3 → ℝ

/-- 3×3 real matrices (nalgebra `Rotation3<f64>` as its matrix). -/
abbrev Mat3 := Matrix (Fin 3) (Fin 3) ℝ

/-- 4×4 real matrices (nalgebra `Matrix4<f64>`). -/
abbrev Mat4 := Matrix (Fin 4) (Fin 4) ℝ

/-- `std::f64::consts::FRAC_PI_2`. -/
noncomputable def FRAC_PI_2 : ℝ := Real.pi / 2

/-- Dot product of two 3D vectors. -/
def dot3 (a b : Vec3) : ℝ := a 0 * b 0 + a 1 * b 1 + a 2 * b 2

/-- Cross product of two 3D vectors (nalgebra `Vector3::cross`). -/
def cross3 (a b : Vec3) : Vec3 :=
  ![a 1 * b 2 - a 2 * b 1, a 2 * b 0 - a 0 * b 2, a 0 * b 1 - a 1 * b 0]

/-- Normalization of a 3D vector (nalgebra `Vector3::normalize`). -/
noncomputable def normalize3 (v : Vec3) : Vec3 :=
  fun i => v i / Real.sqrt (dot3 v v)

/-- Rotation about the X axis: nalgebra
`Rotation3::from_axis_angle(&Vector3::x_axis(), angle)`. -/
noncomputable def rotX (angle : ℝ) : Mat3 :=
  !![1, 0, 0;
     0, Real.cos angle, -Real.sin angle;
     0, Real.sin angle, Real.cos angle]

/-- Rotation about the Y axis: nalgebra
`Rotation3::from_axis_angle(&Vector3::y_axis(), angle)`. -/
noncomputable def rotY (angle : ℝ) : Mat3 :=
  !![Real.cos angle, 0, Real.sin angle;
     0, 1, 0;
     -Real.sin angle, 0, Real.cos angle]

/-- Rotation about the Z axis: nalgebra
`Rotation3::from_axis_angle(&Vector3::z_axis(), angle)`. -/
noncomputable def rotZ (angle : ℝ) : Mat3 :=
  !![Real.cos angle, -Real.sin angle, 0;
     Real.sin angle, Real.cos angle, 0;
     0, 0, 1]

/-- The per-set rotation computed inside the frame closure of `start`
(src/lib.rs lines 146–152): elementary rotations about X, Y, Z with angles
`FRAC_PI_2 * t * ro[i]`, multiplied as `rotation_x * rotation_y * rotation_z`. -/
noncomputable def rotationDriver (t : ℝ) (ro : Fin 3 → ℝ) : Mat3 :=
  rotX (FRAC_PI_2 * t * ro 0) * rotY (FRAC_PI_2 * t * ro 1) * rotZ (FRAC_PI_2 * t * ro 2)

/-- The detail-tier selection of `start` (src/lib.rs lines 78–85):
`resolution = width * height`; 4 above 1 800 000, 3 above 300 000, else 2. -/
def scale (width height : ℚ) : ℕ :=
  let resolution := width * height
  if resolution > 1800000 then 4
  else if resolution > 300000 then 3
  else 2

/-- A rigid transform: rotation part and translation part
(nalgebra `Isometry3<f64>`). -/
structure Iso where
  rot : Mat3
  trans : Vec3

/-- Application of an isometry to a point. -/
def Iso.apply (m : Iso) (p : Vec3) : Vec3 :=
  fun i => m.rot.mulVec p i + m.trans i

/-- Composition of isometries, `a * b` in nalgebra (apply `b` first). -/
def Iso.comp (a b : Iso) : Iso :=
  { rot := a.rot * b.rot
    trans := fun i => a.rot.mulVec b.trans i + a.trans i }

/-- Homogeneous 4×4 form of an isometry (nalgebra `to_homogeneous`). -/
def Iso.toHomogeneous (m : Iso) : Mat4 :=
  !![m.rot 0 0, m.rot 0 1, m.rot 0 2, m.trans 0;
     m.rot 1 0, m.rot 1 1, m.rot 1 2, m.trans 1;
     m.rot 2 0, m.rot 2 1, m.rot 2 2, m.trans 2;
     0, 0, 0, 1]

/-- Rotation part of nalgebra `Rotation3::look_at_lh(dir, up)`:
orthonormal rows built from the normalized direction and up vectors. -/
noncomputable def lookAtLhRot (dir up : Vec3) : Mat3 :=
  let zaxis := normalize3 dir
  let xaxis := normalize3 (cross3 up zaxis)
  let yaxis := normalize3 (cross3 zaxis xaxis)
  !![xaxis 0, xaxis 1, xaxis 2;
     yaxis 0, yaxis 1, yaxis 2;
     zaxis 0, zaxis 1, zaxis 2]

/-- nalgebra `Isometry3::look_at_rh(eye, target, up)`: the right-handed
look-at view transform, mapping `eye` to the origin. -/
noncomputable def lookAtRh (eye target up : Vec3) : Iso :=
  let rot := lookAtLhRot (fun i => -(target i - eye i)) up
  { rot := rot, trans := rot.mulVec (fun i => -eye i) }

/-- nalgebra `Orthographic3::new(left, right, bottom, top, znear, zfar)`
as its 4×4 projection matrix. -/
noncomputable def orthographic (left right bottom top znear zfar : ℝ) : Mat4 :=
  !![2 / (right - left), 0, 0, -(right + left) / (right - left);
     0, 2 / (top - bottom), 0, -(top + bottom) / (top - bottom);
     0, 0, -2 / (zfar - znear), -(zfar + znear) / (zfar - znear);
     0, 0, 0, 1]

/-- The model transform of `start`: `Isometry3::new(Vector3::x(), nalgebra::zero())`,
i.e. translation by the unit X vector with a zero axis-angle rotation
(the zero axis-angle yields the identity rotation). -/
def model : Iso := { rot := 1, trans := ![1, 0, 0] }

/-- The view transform of `start`:
`Isometry3::look_at_rh(&Point3::new(0,0,30), &Point3::origin(), &Vector3::y())`. -/
noncomputable def view : Iso := lookAtRh ![0, 0, 30] ![0, 0, 0] ![0, 1, 0]

/-- The projection of `start`: `Orthographic3::new(0.0, 0.25, 0.0, 0.25, 1.0, 100.0)`. -/
noncomputable def projection : Mat4 := orthographic 0 0.25 0 0.25 1 100

/-- The combined camera matrix of `start`:
`projection.as_matrix() * (view * model).to_homogeneous()`, computed once at
startup (a constant of the program: it takes no argument and never changes). -/
noncomputable def camera : Mat4 := projection * (Iso.comp view model).toHomogeneous

/-- The screen-center translation of `start`:
`Vector3::new(width / 2.0, height / 2.0, 0.0)`, computed once at startup. -/
noncomputable def translation (width height : ℝ) : Vec3 := ![width / 2, height / 2, 0]

/-- nalgebra `Matrix4::transform_point`: homogeneous transform of a point
followed by the perspective division by the resulting `w` component. -/
noncomputable def transformPoint (m : Mat4) (p : Vec3) : Vec3 :=
  let h := m.mulVec ![p 0, p 1, p 2, 1]
  ![h 0 / h 3, h 1 / h 3, h 2 / h 3]

/-- The per-point projection of `draw_dotset` (src/lib.rs line 207):
`camera.transform_point(&(rotation * point)) + translation`. -/
noncomputable def projectPoint (cam : Mat4) (tr : Vec3) (rot : Mat3) (p : Vec3) : Vec3 :=
  fun i => transformPoint cam (rot.mulVec p) i + tr i

/-- The 2D pixel coordinate actually consumed by `draw_dot`, which reads only
`point.x` and `point.y` and ignores the depth component. -/
def pixel (p : Vec3) : ℝ × ℝ := (p 0, p 1)

/-- Modelled from the spec: the mesh generator `ncollide3d::procedural::sphere`
(called by `DotSet::new` with `generate_uvs = false`) is not part of this
repository's sources.  Following the spec's MeshGenerator contract it is
modelled as the standard latitude–longitude point sphere: a bottom pole,
`v - 1` latitude rings of `u` points each, and a top pole, every point scaled
to radius `diameter / 2`; connectivity information is discarded.  This is the
`j`-th latitude ring: `u` points at polar angle `φ(j)`. -/
noncomputable def sphereRing (diameter : ℝ) (u v : ℕ) (j : ℕ) : List Vec3 :=
  (List.range u).map fun (i : ℕ) =>
    let θ := (i : ℝ) * (2 * Real.pi / u)
    let φ := -(Real.pi / 2) + ((j : ℝ) + 1) * (Real.pi / v)
    ![diameter / 2 * (Real.cos θ * Real.cos φ),
      diameter / 2 * Real.sin φ,
      diameter / 2 * (Real.sin θ * Real.cos φ)]

/-- Modelled from the spec: the full generated point list — bottom pole,
the `v - 1` latitude rings in order, top pole. -/
noncomputable def sphereMesh (diameter : ℝ) (u v : ℕ) : List Vec3 :=
  ![0, -(diameter / 2), 0] ::
    ((List.range (v - 1)).flatMap (sphereRing diameter u v) ++ [![0, diameter / 2, 0]])

/-- The `SetConfig` record (src/lib.rs lines 46–57).  The `spread` field
(`rand_distr::Normal`) is embedded as its mean/standard-deviation pair. -/
structure SetConfig where
  l : ℝ
  v : ℕ
  u : ℕ
  diameter : ℝ
  radius : ℝ
  ro : Fin 3 → ℝ
  period : ℝ
  amplitude : ℝ
  speed : ℝ
  spread : ℝ × ℝ

/-- The `DotSet` record (src/lib.rs lines 30–34): the generated mesh
coordinates, the display radius and the rotation-weight vector. -/
structure DotSet where
  mesh : List Vec3
  radius : ℝ
  rotation : Fin 3 → ℝ

/-- `DotSet::new` (src/lib.rs lines 37–43): builds the sphere mesh from
`diameter`, `u`, `v` and copies `radius` and `ro`; the fields `l`, `period`,
`amplitude`, `speed` and `spread` are not read. -/
noncomputable def DotSet.new (config : SetConfig) : DotSet :=
  { mesh := sphereMesh config.diameter config.u config.v
    radius := config.radius
    rotation := config.ro }

/-- The three `SetConfig` literals of `start` (src/lib.rs lines 95–135),
as a function of the detail tier `scale`. -/
noncomputable def setConfigs (s : ℕ) : List SetConfig :=
  [ { l := 1, v := 1 * s, u := 2 * s, diameter := 20, radius := 4,
      ro := ![-2, -1, 3], period := 0.004, amplitude := 100, speed := 1,
      spread := (0, 50) },
    { l := 2, v := 2 * s, u := 4 * s, diameter := 40, radius := 3,
      ro := ![-1, 1, 2], period := 0.001, amplitude := 200, speed := 1,
      spread := (0, 150) },
    { l := 3, v := 4 * s, u := 8 * s, diameter := 60, radius := 2,
      ro := ![-1, 3, 1], period := 0.006, amplitude := 150, speed := 1,
      spread := (0, 300) } ]

/-- One observable drawing command issued to the canvas context during a tick. -/
inductive Cmd where
  | clear : Cmd
  | dot : ℝ × ℝ → ℝ → Cmd

/-- `draw_dotset` (src/lib.rs lines 198–212): one dot per mesh point, at the
projected pixel coordinate, with the set's radius. -/
noncomputable def drawDotset (cam : Mat4) (tr : Vec3) (rot : Mat3) (set : DotSet) :
    List Cmd :=
  set.mesh.map fun p => Cmd.dot (pixel (projectPoint cam tr rot p)) set.radius

/-- The fixed time advance of the frame closure: `t += 0.002`. -/
noncomputable def stepTime (t : ℝ) : ℝ := t + 0.002

/-- One tick of the frame closure (src/lib.rs lines 143–158): clear the whole
surface, then for each set in order compute its rotation from the current time
and draw all its dots, then advance the time.  The closure then re-registers
itself with the host scheduler, which is what feeds the returned time into the
next tick. -/
noncomputable def tick (cam : Mat4) (tr : Vec3) (sets : List DotSet) (t : ℝ) :
    List Cmd × ℝ :=
  (Cmd.clear :: sets.flatMap (fun set => drawDotset cam tr (rotationDriver t set.rotation) set),
   stepTime t)

/-- The global time after `n` completed ticks: `let mut t = 0.0` at startup,
then one `stepTime` per tick; no other code mutates it. -/
noncomputable def timeAfter : ℕ → ℝ
  | 0 => 0
  | n + 1 => stepTime (timeAfter n)

/-- Agreement of two configurations on every field that `DotSet::new` reads
(`v`, `u`, `diameter`, `radius`, `ro`); the fields `l`, `period`, `amplitude`,
`speed` and `spread` are left unconstrained. -/
def agreesOnConsumed (c1 c2 : SetConfig) : Prop :=
  c1.v = c2.v ∧ c1.u = c2.u ∧ c1.diameter = c2.diameter ∧
  c1.radius = c2.radius ∧ c1.ro = c2.ro

/-- A concrete configuration (the first `SetConfig` literal of `start`). -/
noncomputable def cfgA : SetConfig :=
  { l := 1, v := 2, u := 4, diameter := 20, radius := 4,
    ro := ![-2, -1, 3], period := 0.004, amplitude := 100, speed := 1,
    spread := (0, 50) }

/-- `cfgA` with every inert field (`l`, `period`, `amplitude`, `speed`,
`spread`) changed. -/
noncomputable def cfgB : SetConfig :=
  { l := 7, v := 2, u := 4, diameter := 20, radius := 4,
    ro := ![-2, -1, 3], period := 9, amplitude := 0, speed := 3,
    spread := (1, 2) }

theorem rotX_zero : rotX 0 = 1 := by
  simp [rotX, Matrix.one_fin_three]

theorem rotY_zero : rotY 0 = 1 := by
  simp [rotY, Matrix.one_fin_three]

theorem rotZ_zero : rotZ 0 = 1 := by
  simp [rotZ, Matrix.one_fin_three]

theorem rotX_pi : rotX Real.pi = !![1, 0, 0; 0, -1, 0; 0, 0, -1] := by
  simp [rotX]

theorem rotationDriver_zero (w : Fin 3 → ℝ) : rotationDriver 0 w = 1 := by
  simp [rotationDriver, rotX_zero, rotY_zero, rotZ_zero]

/-- C1: for every time `t` and weight vector `w`, the rotation produced by the
frame closure is the product, written in the order X then Y then Z, of the
elementary rotations by angles `(π/2)·t·wx`, `(π/2)·t·wy`, `(π/2)·t·wz`; and
for `w = (1,0,0)` at `t = 2` it is the pure rotation about X by π radians. -/
theorem rotation_driver_composition (t : ℝ) (w : Fin 3 → ℝ) :
    rotationDriver t w =
      rotX (Real.pi / 2 * t * w 0) * rotY (Real.pi / 2 * t * w 1) *
        rotZ (Real.pi / 2 * t * w 2) ∧
    rotationDriver 2 ![1, 0, 0] = rotX Real.pi ∧
    rotationDriver 2 ![1, 0, 0] = !![1, 0, 0; 0, -1, 0; 0, 0, -1] := by
  have hx : FRAC_PI_2 * 2 * ((![1, 0, 0] : Fin 3 → ℝ) 0) = Real.pi := by
    simp [FRAC_PI_2]
  have hy : FRAC_PI_2 * 2 * ((![1, 0, 0] : Fin 3 → ℝ) 1) = 0 := by
    simp [FRAC_PI_2]
  have hz : FRAC_PI_2 * 2 * ((![1, 0, 0] : Fin 3 → ℝ) 2) = 0 := by
    simp [FRAC_PI_2]
  have h2 : rotationDriver 2 ![1, 0, 0] = rotX Real.pi := by
    rw [rotationDriver, hx, hy, hz, rotY_zero, rotZ_zero, mul_one, mul_one]
  exact ⟨rfl, h2, by rw [h2, rotX_pi]⟩

/-- C2: at `t = 0` the composed rotation is the identity for every weight
vector, and hence the projector output at `t = 0` equals the projector output
with the identity rotation, for every point, camera and translation. -/
theorem rotation_identity_at_zero (w : Fin 3 → ℝ) (p : Vec3) (cam : Mat4) (tr : Vec3) :
    rotationDriver 0 w = 1 ∧
    projectPoint cam tr (rotationDriver 0 w) p = projectPoint cam tr 1 p := by
  refine ⟨rotationDriver_zero w, ?_⟩
  rw [rotationDriver_zero]

/-- C3: the projector output is the camera transform of the rotated point with
the translation added to its first two coordinates, the depth component being
ignored; and on the 2-point mesh `(1,0,0)`, `(0,1,0)` with identity rotation,
identity camera and translation `(5,5)` it returns `(6,5)` and `(5,6)`. -/
theorem projector_spec :
    (∀ (cam : Mat4) (tr : Vec3) (rot : Mat3) (p : Vec3),
        pixel (projectPoint cam tr rot p) =
          (transformPoint cam (rot.mulVec p) 0 + tr 0,
           transformPoint cam (rot.mulVec p) 1 + tr 1)) ∧
    translation 10 10 = ![5, 5, 0] ∧
    pixel (projectPoint 1 ![5, 5, 0] 1 ![1, 0, 0]) = (6, 5) ∧
    pixel (projectPoint 1 ![5, 5, 0] 1 ![0, 1, 0]) = (5, 6) := by
  refine ⟨fun cam tr rot p => rfl, ?_, ?_, ?_⟩
  · funext i
    fin_cases i <;> norm_num [translation]
  · simp [pixel, projectPoint, transformPoint, Matrix.one_mulVec]
    norm_num
  · simp [pixel, projectPoint, transformPoint, Matrix.one_mulVec]
    norm_num

/-- C7: each tick first clears the surface, then draws, for every set in
order, every mesh point at its projected coordinate with the set's radius,
and returns the time advanced by exactly 0.002, which is strictly larger
than the current time. -/
theorem tick_spec (cam : Mat4) (tr : Vec3) (sets : List DotSet) (t : ℝ) :
    (tick cam tr sets t).1 =
      Cmd.clear ::
        sets.flatMap (fun set =>
          set.mesh.map fun p =>
            Cmd.dot (pixel (projectPoint cam tr (rotationDriver t set.rotation) p))
              set.radius) ∧
    (tick cam tr sets t).2 = t + 0.002 ∧
    t < (tick cam tr sets t).2 := by
  refine ⟨rfl, rfl, ?_⟩
  show t < stepTime t
  rw [stepTime]
  norm_num

/-- C10: the global time starts at exactly 0, equals `n · 0.002` after `n`
completed ticks (each tick produces the next time), and the first frame is
rendered with the identity rotation for every set. -/
theorem initial_time_and_step (cam : Mat4) (tr : Vec3) (sets : List DotSet) (n : ℕ) :
    timeAfter 0 = 0 ∧
    timeAfter n = n * 0.002 ∧
    (tick cam tr sets (timeAfter n)).2 = timeAfter (n + 1) ∧
    (tick cam tr sets 0).1 =
      Cmd.clear :: sets.flatMap (fun set => drawDotset cam tr 1 set) := by
  refine ⟨rfl, ?_, rfl, ?_⟩
  · induction n with
    | zero => simp [timeAfter]
    | succ m ih =>
        rw [timeAfter, stepTime, ih]
        push_cast
        ring
  · show Cmd.clear :: sets.flatMap
        (fun set => drawDotset cam tr (rotationDriver 0 set.rotation) set) = _
    simp [rotationDriver_zero]

/-- C5: the detail tier is 4 when the viewport area exceeds 1 800 000, else 3
when it exceeds 300 000, else 2; areas 250 000, 1 000 000 and 1 920 000 give
tiers 2, 3 and 4; and the tier multiplies every set's base subdivision counts. -/
theorem detail_tier_spec (w h : ℚ) :
    scale w h = (if w * h > 1800000 then 4 else if w * h > 300000 then 3 else 2) ∧
    scale 500 500 = 2 ∧ scale 1000 1000 = 3 ∧ scale 1200 1600 = 4 ∧
    ∀ s : ℕ, (setConfigs s).map (fun c => (c.u, c.v)) =
      [(2 * s, 1 * s), (4 * s, 2 * s), (8 * s, 4 * s)] := by
  refine ⟨rfl, by norm_num [scale], by norm_num [scale], by norm_num [scale], fun s => ?_⟩
  simp [setConfigs]

theorem view_eval : view = { rot := 1, trans := ![0, 0, -30] } := by
  have h900 : Real.sqrt 900 = 30 := by
    rw [show (900 : ℝ) = 30 ^ 2 by norm_num]
    exact Real.sqrt_sq (by norm_num)
  have hdir : (fun i => -((![0, 0, 0] : Vec3) i - (![0, 0, 30] : Vec3) i)) =
      (![0, 0, 30] : Vec3) := by
    funext i; fin_cases i <;> norm_num
  have hz : normalize3 ![0, 0, 30] = ![0, 0, 1] := by
    have hdot : dot3 ![0, 0, 30] ![0, 0, 30] = 900 := by norm_num [dot3]
    funext i
    fin_cases i <;> simp [normalize3, hdot, h900]
  have hcx : cross3 ![0, 1, 0] ![0, 0, 1] = ![1, 0, 0] := by
    funext i; fin_cases i <;> norm_num [cross3]
  have hnx : normalize3 ![1, 0, 0] = ![1, 0, 0] := by
    have hdot : dot3 ![1, 0, 0] ![1, 0, 0] = 1 := by norm_num [dot3]
    funext i
    fin_cases i <;> simp [normalize3, hdot]
  have hcy : cross3 ![0, 0, 1] ![1, 0, 0] = ![0, 1, 0] := by
    funext i; fin_cases i <;> norm_num [cross3]
  have hny : normalize3 ![0, 1, 0] = ![0, 1, 0] := by
    have hdot : dot3 ![0, 1, 0] ![0, 1, 0] = 1 := by norm_num [dot3]
    funext i
    fin_cases i <;> simp [normalize3, hdot]
  have hrot : lookAtLhRot (fun i => -((![0, 0, 0] : Vec3) i - (![0, 0, 30] : Vec3) i))
      ![0, 1, 0] = 1 := by
    simp only [lookAtLhRot, hdir, hz, hcx, hnx, hcy, hny]
    simp [Matrix.one_fin_three]
  simp only [view, lookAtRh, hrot]
  congr 1
  rw [Matrix.one_mulVec]
  funext i
  fin_cases i <;> norm_num

theorem mul_fin_four {α : Type*} [NonUnitalNonAssocSemiring α]
    (a11 a12 a13 a14 a21 a22 a23 a24 a31 a32 a33 a34 a41 a42 a43 a44
     b11 b12 b13 b14 b21 b22 b23 b24 b31 b32 b33 b34 b41 b42 b43 b44 : α) :
    !![a11, a12, a13, a14; a21, a22, a23, a24;
       a31, a32, a33, a34; a41, a42, a43, a44] *
      !![b11, b12, b13, b14; b21, b22, b23, b24;
         b31, b32, b33, b34; b41, b42, b43, b44] =
    !![a11*b11 + a12*b21 + a13*b31 + a14*b41, a11*b12 + a12*b22 + a13*b32 + a14*b42,
       a11*b13 + a12*b23 + a13*b33 + a14*b43, a11*b14 + a12*b24 + a13*b34 + a14*b44;
       a21*b11 + a22*b21 + a23*b31 + a24*b41, a21*b12 + a22*b22 + a23*b32 + a24*b42,
       a21*b13 + a22*b23 + a23*b33 + a24*b43, a21*b14 + a22*b24 + a23*b34 + a24*b44;
       a31*b11 + a32*b21 + a33*b31 + a34*b41, a31*b12 + a32*b22 + a33*b32 + a34*b42,
       a31*b13 + a32*b23 + a33*b33 + a34*b43, a31*b14 + a32*b24 + a33*b34 + a34*b44;
       a41*b11 + a42*b21 + a43*b31 + a44*b41, a41*b12 + a42*b22 + a43*b32 + a44*b42,
       a41*b13 + a42*b23 + a43*b33 + a44*b43, a41*b14 + a42*b24 + a43*b34 + a44*b44] := by
  ext i j
  fin_cases i <;> fin_cases j <;>
    simp [Matrix.mul_apply, Fin.sum_univ_succ, ← add_assoc]

theorem camera_eval :
    camera = !![8, 0, 0, 7; 0, 8, 0, -1; 0, 0, -2/99, -41/99; 0, 0, 0, 1] := by
  have hcomp : Iso.comp view model = { rot := 1, trans := ![1, 0, -30] } := by
    rw [view_eval]
    simp only [Iso.comp, model, one_mul]
    congr 1
    funext i
    rw [Matrix.one_mulVec]
    fin_cases i <;> norm_num
  have hH : (Iso.comp view model).toHomogeneous =
      !![1, 0, 0, 1; 0, 1, 0, 0; 0, 0, 1, -30; 0, 0, 0, 1] := by
    rw [hcomp, Iso.toHomogeneous]
    norm_num [Matrix.one_apply, Fin.ext_iff]
  show projection * (Iso.comp view model).toHomogeneous = _
  rw [hH, projection, orthographic, mul_fin_four]
  ext i j
  fin_cases i <;> fin_cases j <;> norm_num

/-- C4 counterexample: the model transform of `start` is
`Isometry3::new(Vector3::x(), zero)`, a translation by the unit X vector; it
is not identity-like, since it moves the origin to `(1,0,0)`. -/
theorem model_not_identity : ¬ Iso.apply model ![0, 0, 0] = ![0, 0, 0] := by
  intro h
  have h0 := congrFun h 0
  rw [Iso.apply] at h0
  simp only [model, Matrix.one_mulVec] at h0
  norm_num at h0

/-- C4 (amended): the camera is the constant matrix computed once at startup
as the orthographic projection times the homogeneous form of `view · model`,
where `view` is the right-handed look-at from eye `(0,0,30)` to `(0,0,0)` with
up vector Y, and the model transform is the pure translation by `(1,0,0)`
(not identity-like); explicitly it equals
`!![8,0,0,7; 0,8,0,-1; 0,0,-2/99,-41/99; 0,0,0,1]` and never changes. -/
theorem camera_construction :
    camera = projection * (Iso.comp view model).toHomogeneous ∧
    view = lookAtRh ![0, 0, 30] ![0, 0, 0] ![0, 1, 0] ∧
    projection = orthographic 0 0.25 0 0.25 1 100 ∧
    model = { rot := 1, trans := ![1, 0, 0] } ∧
    camera = !![8, 0, 0, 7; 0, 8, 0, -1; 0, 0, -2/99, -41/99; 0, 0, 0, 1] :=
  ⟨rfl, rfl, rfl, rfl, camera_eval⟩

theorem sphere_point_sq (r θ φ : ℝ) :
    dot3 ![r * (Real.cos θ * Real.cos φ), r * Real.sin φ, r * (Real.sin θ * Real.cos φ)]
      ![r * (Real.cos θ * Real.cos φ), r * Real.sin φ, r * (Real.sin θ * Real.cos φ)] =
      r ^ 2 := by
  have hθ := Real.sin_sq_add_cos_sq θ
  have hφ := Real.sin_sq_add_cos_sq φ
  simp only [dot3, Matrix.cons_val_zero, Matrix.cons_val_one,
    Matrix.cons_val_two, Matrix.head_cons, Matrix.tail_cons]
  linear_combination (r ^ 2 * Real.cos φ ^ 2) * hθ + r ^ 2 * hφ

/-- C6: for positive diameter and subdivision counts, the generated mesh is a
non-empty list of points, each at distance `diameter / 2` from the origin. -/
theorem mesh_on_sphere (d : ℝ) (u v : ℕ) (hd : 0 < d) (_hu : 1 ≤ u) (_hv : 1 ≤ v) :
    sphereMesh d u v ≠ [] ∧
    ∀ p ∈ sphereMesh d u v, Real.sqrt (dot3 p p) = d / 2 := by
  have hr : (0 : ℝ) ≤ d / 2 := by linarith
  constructor
  · simp [sphereMesh]
  · intro p hp
    simp only [sphereMesh, sphereRing, List.mem_cons, List.mem_append,
      List.mem_flatMap, List.mem_map, List.mem_range, List.mem_singleton,
      List.not_mem_nil, or_false] at hp
    rcases hp with h | ⟨j, _, ⟨i, _, h⟩⟩ | h
    · have : dot3 p p = (d / 2) ^ 2 := by
        rw [h]
        simp only [dot3, Matrix.cons_val_zero, Matrix.cons_val_one,
          Matrix.cons_val_two, Matrix.head_cons, Matrix.tail_cons]
        ring
      rw [this, Real.sqrt_sq hr]
    · have : dot3 p p = (d / 2) ^ 2 := by
        rw [← h]
        exact sphere_point_sq (d / 2) _ _
      rw [this, Real.sqrt_sq hr]
    · have : dot3 p p = (d / 2) ^ 2 := by
        rw [h]
        simp only [dot3, Matrix.cons_val_zero, Matrix.cons_val_one,
          Matrix.cons_val_two, Matrix.head_cons, Matrix.tail_cons]
        ring
      rw [this, Real.sqrt_sq hr]

/-- Witness for C6 at `d = 2`, `u = v = 1`. -/
theorem mesh_on_sphere_witness :
    sphereMesh 2 1 1 ≠ [] ∧
    ∀ p ∈ sphereMesh 2 1 1, Real.sqrt (dot3 p p) = 2 / 2 :=
  mesh_on_sphere 2 1 1 (by norm_num) (le_refl 1) (le_refl 1)

theorem sphereRing_length (d : ℝ) (u v j : ℕ) : (sphereRing d u v j).length = u := by
  rw [sphereRing, List.length_map, List.length_range]

theorem sphereMesh_length (d : ℝ) (u v : ℕ) :
    (sphereMesh d u v).length = 2 + (v - 1) * u := by
  have key : ∀ n : ℕ, ((List.range n).flatMap (sphereRing d u v)).length = n * u := by
    intro n
    induction n with
    | zero => simp
    | succ m ih =>
        rw [List.range_succ, List.flatMap_append, List.length_append, ih]
        simp [sphereRing_length, Nat.succ_mul]
  simp only [sphereMesh, List.length_cons, List.length_append,
    List.length_singleton, List.length_nil]
  rw [key (v - 1)]
  omega

/-- C9: the mesh point count is `2 + (v·k − 1)·(u·k)` for base counts `(u, v)`
scaled by tier `k`, and is non-decreasing in the tier. -/
theorem point_count_monotone (u v : ℕ) (d : ℝ) (k k' : ℕ) (hk : k ≤ k') :
    (sphereMesh d (u * k) (v * k)).length = 2 + (v * k - 1) * (u * k) ∧
    (sphereMesh d (u * k) (v * k)).length ≤ (sphereMesh d (u * k') (v * k')).length := by
  refine ⟨sphereMesh_length d (u * k) (v * k), ?_⟩
  rw [sphereMesh_length, sphereMesh_length]
  have h1 : v * k - 1 ≤ v * k' - 1 :=
    Nat.sub_le_sub_right (Nat.mul_le_mul le_rfl hk) 1
  have h2 : u * k ≤ u * k' := Nat.mul_le_mul le_rfl hk
  exact Nat.add_le_add_left (Nat.mul_le_mul h1 h2) 2

/-- Witness for C9 at base `(u, v) = (2, 1)`, tiers 2 and 3. -/
theorem point_count_monotone_witness :
    (sphereMesh 20 (2 * 2) (1 * 2)).length = 2 + (1 * 2 - 1) * (2 * 2) ∧
    (sphereMesh 20 (2 * 2) (1 * 2)).length ≤ (sphereMesh 20 (2 * 3) (1 * 3)).length :=
  point_count_monotone 2 1 20 2 3 (by norm_num)

/-- C8: two configuration lists that agree on every consumed field (`v`, `u`,
`diameter`, `radius`, `ro`) but may differ arbitrarily in `l`, `period`,
`amplitude`, `speed` and `spread` build identical point sets, and hence every
tick renders identical output at every time. -/
theorem unused_fields_noninterference (cs1 cs2 : List SetConfig)
    (h : List.Forall₂ agreesOnConsumed cs1 cs2) (cam : Mat4) (tr : Vec3) (t : ℝ) :
    cs1.map DotSet.new = cs2.map DotSet.new ∧
    tick cam tr (cs1.map DotSet.new) t = tick cam tr (cs2.map DotSet.new) t := by
  have hmap : cs1.map DotSet.new = cs2.map DotSet.new := by
    induction h with
    | nil => rfl
    | cons ha htail ih =>
        obtain ⟨hv, hu, hd, hrad, hro⟩ := ha
        simp only [List.map_cons, ih]
        congr 1
        simp [DotSet.new, hv, hu, hd, hrad, hro]
  exact ⟨hmap, by rw [hmap]⟩

/-- Witness for C8: `cfgA` and `cfgB` differ in `l`, `period`, `amplitude`,
`speed` and `spread` yet render the same first frame. -/
theorem unused_fields_noninterference_witness :
    [cfgA].map DotSet.new = [cfgB].map DotSet.new ∧
    tick camera (translation 500 500) ([cfgA].map DotSet.new) 0 =
      tick camera (translation 500 500) ([cfgB].map DotSet.new) 0 :=
  unused_fields_noninterference [cfgA] [cfgB]
    (List.Forall₂.cons ⟨rfl, rfl, rfl, rfl, rfl⟩ List.Forall₂.nil)
    camera (translation 500 500) 0

end WasmGlobe
